import Mathlib

/-!
Shallow embedding of the react-konvajs shape-drawing example
(`src/components/Paint/index.tsx`, `src/components/Paint/func.ts`,
`src/components/Main/index.tsx`).

JavaScript numbers are modelled as rationals (`ℚ`); JavaScript strings as
`String`.  React `useState` cells become fields of explicit state records,
and each event handler becomes a pure function from the old state (plus the
event's data) to the new state, returning in addition whatever it passes to
a callback.  Array index accesses that JavaScript would perform on
`undefined` (out-of-range indices) are modelled by `Option`: `none` stands
for the thrown `TypeError`.
-/

/-- A pointer position, as returned by `getPointerPosition()` (`Position`
in `Paint/index.tsx`). -/
structure Position where
  x : ℚ
  y : ℚ
deriving DecidableEq, Repr

/-- A node size as reported at resize end (`Size` in `Paint/index.tsx`). -/
structure Size where
  width : ℚ
  height : ℚ
deriving DecidableEq, Repr

/-- `CanvasDrawMode` from `Paint/index.tsx`. -/
inductive CanvasDrawMode where
  | SELECT
  | RECT
  | ELLIPSE
  | TEXT_S
  | TEXT_L
deriving DecidableEq, Repr

/-- `PenColor` from `Paint/index.tsx`. -/
inductive PenColor where
  | ORANGE
  | GREEN
  | PURPLE
deriving DecidableEq, Repr

/-- `PaintRect` from `Paint/index.tsx`. -/
structure PaintRect where
  x : ℚ
  y : ℚ
  width : ℚ
  height : ℚ
  key : String
  strokeColor : String
  fillColor : String
  readonly : Bool
deriving DecidableEq, Repr

/-- `PaintEllipse` from `Paint/index.tsx`. -/
structure PaintEllipse where
  x : ℚ
  y : ℚ
  radiusX : ℚ
  radiusY : ℚ
  key : String
  strokeColor : String
  fillColor : String
  readonly : Bool
deriving DecidableEq, Repr

/-- `PaintText` from `Paint/index.tsx`. -/
structure PaintText where
  x : ℚ
  y : ℚ
  width : ℚ
  key : String
  color : String
  fontSize : ℚ
  text : String
  readonly : Bool
deriving DecidableEq, Repr

/-- `PaintShape = PaintRect | PaintEllipse | PaintText`, the tagged union
from `Paint/index.tsx`; the constructor plays the role of the `type` tag. -/
inductive PaintShape where
  | rect (r : PaintRect)
  | ellipse (e : PaintEllipse)
  | text (t : PaintText)
deriving DecidableEq, Repr

/-- `getRGBFromPenColor` from `Paint/func.ts`.  The opacity is interpolated
into the rgba string; Lean renders the rational differently from
JavaScript's number-to-string conversion, but no claim inspects the
rendered digits, only that draft shapes carry exactly the strings this
function produces. -/
def getRGBFromPenColor (penColor : PenColor) (opacity : ℚ) : String :=
  match penColor with
  | .ORANGE => "rgba(249,115,22," ++ toString opacity ++ ")"
  | .GREEN => "rgba(34,197,94," ++ toString opacity ++ ")"
  | .PURPLE => "rgba(168,85,247," ++ toString opacity ++ ")"

/-- `isPaintRect` from `Paint/func.ts` (`shape.type === "RECT"`). -/
def isPaintRect : PaintShape → Bool
  | .rect _ => true
  | _ => false

/-- `isPaintEllipse` from `Paint/func.ts` (`shape.type === "ELLIPSE"`). -/
def isPaintEllipse : PaintShape → Bool
  | .ellipse _ => true
  | _ => false

/-- `isPaintText` from `Paint/func.ts` (`shape.type === "TEXT"`). -/
def isPaintText : PaintShape → Bool
  | .text _ => true
  | _ => false

/-- The `key` property, present on every `PaintShape` variant. -/
def PaintShape.key : PaintShape → String
  | .rect r => r.key
  | .ellipse e => e.key
  | .text t => t.key

/-- The `readonly` property, present on every `PaintShape` variant. -/
def PaintShape.readonly : PaintShape → Bool
  | .rect r => r.readonly
  | .ellipse e => e.readonly
  | .text t => t.readonly

/-- The `x` property, present on every `PaintShape` variant. -/
def PaintShape.x : PaintShape → ℚ
  | .rect r => r.x
  | .ellipse e => e.x
  | .text t => t.x

/-- The `y` property, present on every `PaintShape` variant. -/
def PaintShape.y : PaintShape → ℚ
  | .rect r => r.y
  | .ellipse e => e.y
  | .text t => t.y

/-- Overwriting the `x`/`y` properties of a shape, as the untyped
assignments `newShapes[index].x = pos.x; newShapes[index].y = pos.y` in
`handleShapeMoveEnd` do: every other property is untouched. -/
def PaintShape.setXY (pos : Position) : PaintShape → PaintShape
  | .rect r => .rect { r with x := pos.x, y := pos.y }
  | .ellipse e => .ellipse { e with x := pos.x, y := pos.y }
  | .text t => .text { t with x := pos.x, y := pos.y }

/-- The `selectedShape` state of `Paint` (`{ index, key }`). -/
structure Selection where
  index : Nat
  key : String
deriving DecidableEq, Repr

/-- The state owned by the `Paint` component: the current selection and the
in-progress draft shape (`drawTarget`). -/
structure PaintState where
  selectedShape : Option Selection
  drawTarget : Option PaintShape
deriving DecidableEq, Repr

/-- `handleCanvasMouseDown` from `Paint/index.tsx`.  The pointer position
is assumed available (its absence is a silent no-op guard).  `clickedOnEmpty`
abstracts the test `e.target === stage || "image" in e.target.attrs`;
`key` stands for the fresh `uuidv4()` value. -/
def handleCanvasMouseDown (drawMode : CanvasDrawMode) (penColor : PenColor)
    (ro : Bool) (key : String) (pos : Position) (clickedOnEmpty : Bool)
    (s : PaintState) : PaintState :=
  let s1 := if clickedOnEmpty then { s with selectedShape := none } else s
  match drawMode with
  | .SELECT => s1
  | .RECT =>
      { s1 with drawTarget := some (.rect
          { x := pos.x, y := pos.y, width := 0, height := 0, key := key,
            strokeColor := getRGBFromPenColor penColor 1,
            fillColor := getRGBFromPenColor penColor (3 / 10),
            readonly := ro }) }
  | .ELLIPSE =>
      { s1 with drawTarget := some (.ellipse
          { x := pos.x, y := pos.y, radiusX := 0, radiusY := 0, key := key,
            strokeColor := getRGBFromPenColor penColor 1,
            fillColor := getRGBFromPenColor penColor (3 / 10),
            readonly := ro }) }
  | .TEXT_S =>
      { s1 with drawTarget := some (.text
          { x := pos.x, y := pos.y, width := 0, key := key,
            color := getRGBFromPenColor penColor 1, fontSize := 16,
            text := "TEXT", readonly := ro }) }
  | .TEXT_L =>
      { s1 with drawTarget := some (.text
          { x := pos.x, y := pos.y, width := 0, key := key,
            color := getRGBFromPenColor penColor 1, fontSize := 32,
            text := "TEXT", readonly := ro }) }

/-- `handleCanvasMouseMove` from `Paint/index.tsx`: if a draft exists, its
extent is recomputed from the current pointer position and the draft's
anchor; Rect gets the signed deltas, Ellipse the absolute deltas, Text the
signed x delta. -/
def handleCanvasMouseMove (pos : Position) (s : PaintState) : PaintState :=
  match s.drawTarget with
  | none => s
  | some target =>
      let newTarget :=
        match target with
        | .rect r => PaintShape.rect
            { r with width := pos.x - r.x, height := pos.y - r.y }
        | .ellipse e => PaintShape.ellipse
            { e with radiusX := |pos.x - e.x|, radiusY := |pos.y - e.y| }
        | .text t => PaintShape.text { t with width := pos.x - t.x }
      { s with drawTarget := some newTarget }

/-- `handleCanvasMouseUp` from `Paint/index.tsx`: clears the draft and
invokes `onDrawEnd` with the (possibly absent) draft; the second component
is the argument passed to the callback. -/
def handleCanvasMouseUp (s : PaintState) : PaintState × Option PaintShape :=
  ({ s with drawTarget := none }, s.drawTarget)

/-- Folding a sequence of mouse-move events over the paint state. -/
def runMoves (moves : List Position) (s : PaintState) : PaintState :=
  moves.foldl (fun acc pos => handleCanvasMouseMove pos acc) s

/-- `handleSelect` from `Paint/index.tsx`. -/
def handleSelect (index : Nat) (key : String) (s : PaintState) : PaintState :=
  { s with selectedShape := some { index := index, key := key } }

/-- Clicking the committed shape at `index`.  Per `ShapeList`, the shape's
`onSelect` prop is `undefined` when `shape.readonly`, and the konva node's
`onClick` is exactly that prop, so the click runs `handleSelect` only for a
non-readonly shape.  The boolean reports whether the selection callback
fired; `none` at the list access models the out-of-range `undefined`. -/
def clickShapeAt (shapes : List PaintShape) (index : Nat) (s : PaintState) :
    Option (PaintState × Bool) :=
  match shapes.get? index with
  | none => none
  | some shape =>
      if shape.readonly then some (s, false)
      else some (handleSelect index shape.key s, true)

/-- Whether the `Transformer` attaches to `shape`: in `ShapeList` the
`selected` prop is `selectedShape?.key === shape.key`, and the attach
effect runs only when `selected` is true. -/
def transformerAttached (selectedShape : Option Selection)
    (shape : PaintShape) : Bool :=
  match selectedShape with
  | some sel => sel.key == shape.key
  | none => false

/-- The state owned by the `Main` component that the modelled handlers
touch: the draw mode, the canonical shape list, the background rotation,
and the background image's source URL (`bgImg?.src`; image identity, i.e.
the `HTMLImageElement`, is reconstructed asynchronously from this source
and is not modelled beyond it). -/
structure MainState where
  drawMode : CanvasDrawMode
  shapes : List PaintShape
  bgImgSrc : Option String
  bgImgRotation : ℚ
deriving DecidableEq, Repr

/-- `handleCanvasDrawEnd` from `Main/index.tsx`: resets the draw mode to
`SELECT` and, when a shape was committed, appends it
(`prevShapes.concat(newShape)`). -/
def handleCanvasDrawEnd (newShape : Option PaintShape) (s : MainState) :
    MainState :=
  let s1 := { s with drawMode := CanvasDrawMode.SELECT }
  match newShape with
  | some shape => { s1 with shapes := s1.shapes ++ [shape] }
  | none => s1

/-- `handleShapeMoveEnd` from `Main/index.tsx`: copies the list and
overwrites `x`/`y` of the shape at `index` with the reported position.
`none` models the `TypeError` JavaScript would throw assigning to a
property of `undefined` when `index` is out of range. -/
def handleShapeMoveEnd (index : Nat) (pos : Position)
    (shapes : List PaintShape) : Option (List PaintShape) :=
  match shapes.get? index with
  | none => none
  | some shape => some (shapes.set index (shape.setXY pos))

/-- `handleShapeResizeEnd` from `Main/index.tsx`: Rect stores the reported
width/height directly; Ellipse stores `Math.floor(width / 2)` and
`Math.floor(height / 2)` as its radii; Text stores only the width. -/
def handleShapeResizeEnd (index : Nat) (size : Size)
    (shapes : List PaintShape) : Option (List PaintShape) :=
  match shapes.get? index with
  | none => none
  | some targetShape =>
      let newShape :=
        match targetShape with
        | .rect r => PaintShape.rect
            { r with width := size.width, height := size.height }
        | .ellipse e => PaintShape.ellipse
            { e with radiusX := (⌊size.width / 2⌋ : ℚ),
                     radiusY := (⌊size.height / 2⌋ : ℚ) }
        | .text t => PaintShape.text { t with width := size.width }
      some (shapes.set index newShape)

/-- `target.text.substring(0, target.text.length - 1)`: removes the last
character (on the empty string, `substring(0, -1)` is again empty, exactly
like `dropLast`). -/
def backspaceText (s : String) : String :=
  String.mk s.data.dropLast

/-- `handleTextInput` from `Main/index.tsx`: only a `TEXT` shape is
affected; `"Backspace"` removes the last character, any other key string is
appended; a Rect or Ellipse target leaves the (copied) list as it was. -/
def handleTextInput (index : Nat) (char : String)
    (shapes : List PaintShape) : Option (List PaintShape) :=
  match shapes.get? index with
  | none => none
  | some target =>
      match target with
      | .text t =>
          let newText :=
            if char = "Backspace" then backspaceText t.text
            else t.text ++ char
          some (shapes.set index (PaintShape.text { t with text := newText }))
      | _ => some shapes

/-- A JSON value, the result of `JSON.parse` / the argument of
`JSON.stringify`.  Numbers are rationals, object members keep their
order. -/
inductive Json where
  | null
  | bool (b : Bool)
  | num (q : ℚ)
  | str (s : String)
  | arr (elems : List Json)
  | obj (members : List (String × Json))

/-- Property lookup on a member list (our serializer never emits duplicate
keys, so first match suffices). -/
def lookupMember : List (String × Json) → String → Option Json
  | [], _ => none
  | (k, v) :: rest, name => if k = name then some v else lookupMember rest name

/-- Property access `value[name]` on a parsed JSON value. -/
def Json.getField : Json → String → Option Json
  | .obj members, name => lookupMember members name
  | _, _ => none

/-- Reading a JSON value at TypeScript type `number`. -/
def Json.asNum : Json → Option ℚ
  | .num q => some q
  | _ => none

/-- Reading a JSON value at TypeScript type `string`. -/
def Json.asStr : Json → Option String
  | .str s => some s
  | _ => none

/-- Reading a JSON value at TypeScript type `boolean`. -/
def Json.asBool : Json → Option Bool
  | .bool b => some b
  | _ => none

/-- Reading a JSON value at a TypeScript array type. -/
def Json.asArr : Json → Option (List Json)
  | .arr elems => some elems
  | _ => none

/-- `JSON.stringify` of a `PaintShape`, at the JSON-value level: one object
per variant, members in the property-creation order of the shape literals
in `handleCanvasMouseDown`. -/
def shapeToJson : PaintShape → Json
  | .rect r => .obj
      [("type", .str "RECT"), ("x", .num r.x), ("y", .num r.y),
       ("width", .num r.width), ("height", .num r.height),
       ("key", .str r.key), ("strokeColor", .str r.strokeColor),
       ("fillColor", .str r.fillColor), ("readonly", .bool r.readonly)]
  | .ellipse e => .obj
      [("type", .str "ELLIPSE"), ("x", .num e.x), ("y", .num e.y),
       ("radiusX", .num e.radiusX), ("radiusY", .num e.radiusY),
       ("key", .str e.key), ("strokeColor", .str e.strokeColor),
       ("fillColor", .str e.fillColor), ("readonly", .bool e.readonly)]
  | .text t => .obj
      [("type", .str "TEXT"), ("x", .num t.x), ("y", .num t.y),
       ("width", .num t.width), ("text", .str t.text), ("key", .str t.key),
       ("fontSize", .num t.fontSize), ("color", .str t.color),
       ("readonly", .bool t.readonly)]

/-- Reading a parsed JSON value back at type `PaintShape` (the shape that
the importing path assigns into the typed state; the source performs no runtime
validation, so `none` marks a value whose layout does not match the
TypeScript type and would misrender downstream). -/
def shapeFromJson (j : Json) : Option PaintShape :=
  ((j.getField "type").bind Json.asStr).bind fun ty =>
  if ty = "RECT" then
    ((j.getField "x").bind Json.asNum).bind fun x =>
    ((j.getField "y").bind Json.asNum).bind fun y =>
    ((j.getField "width").bind Json.asNum).bind fun width =>
    ((j.getField "height").bind Json.asNum).bind fun height =>
    ((j.getField "key").bind Json.asStr).bind fun key =>
    ((j.getField "strokeColor").bind Json.asStr).bind fun strokeColor =>
    ((j.getField "fillColor").bind Json.asStr).bind fun fillColor =>
    ((j.getField "readonly").bind Json.asBool).bind fun ro =>
    some (.rect { x := x, y := y, width := width, height := height,
                  key := key, strokeColor := strokeColor,
                  fillColor := fillColor, readonly := ro })
  else if ty = "ELLIPSE" then
    ((j.getField "x").bind Json.asNum).bind fun x =>
    ((j.getField "y").bind Json.asNum).bind fun y =>
    ((j.getField "radiusX").bind Json.asNum).bind fun radiusX =>
    ((j.getField "radiusY").bind Json.asNum).bind fun radiusY =>
    ((j.getField "key").bind Json.asStr).bind fun key =>
    ((j.getField "strokeColor").bind Json.asStr).bind fun strokeColor =>
    ((j.getField "fillColor").bind Json.asStr).bind fun fillColor =>
    ((j.getField "readonly").bind Json.asBool).bind fun ro =>
    some (.ellipse { x := x, y := y, radiusX := radiusX, radiusY := radiusY,
                     key := key, strokeColor := strokeColor,
                     fillColor := fillColor, readonly := ro })
  else if ty = "TEXT" then
    ((j.getField "x").bind Json.asNum).bind fun x =>
    ((j.getField "y").bind Json.asNum).bind fun y =>
    ((j.getField "width").bind Json.asNum).bind fun width =>
    ((j.getField "text").bind Json.asStr).bind fun text =>
    ((j.getField "key").bind Json.asStr).bind fun key =>
    ((j.getField "fontSize").bind Json.asNum).bind fun fontSize =>
    ((j.getField "color").bind Json.asStr).bind fun color =>
    ((j.getField "readonly").bind Json.asBool).bind fun ro =>
    some (.text { x := x, y := y, width := width, key := key, color := color,
                  fontSize := fontSize, text := text, readonly := ro })
  else none

/-- The document the text area carries: the TypeScript type annotated on
`JSON.parse`'s result in `handleJSONImport`
(`{ bgImgSrc?: string; bgImgRotation: number; shapes: PaintShape[] }`). -/
structure PaintDocument where
  bgImgSrc : Option String
  bgImgRotation : ℚ
  shapes : List PaintShape
deriving DecidableEq, Repr

/-- `JSON.stringify({ bgImgSrc: bgImg?.src, bgImgRotation, shapes })` at
the JSON-value level.  `JSON.stringify` drops a member whose value is
`undefined`, so the `bgImgSrc` member appears only when an image source
exists. -/
def docToJson (d : PaintDocument) : Json :=
  .obj ((match d.bgImgSrc with
          | some src => [("bgImgSrc", Json.str src)]
          | none => []) ++
        [("bgImgRotation", .num d.bgImgRotation),
         ("shapes", .arr (d.shapes.map shapeToJson))])

/-- Reading a parsed JSON value back at type `PaintDocument` (the typed
reading the import path assigns into state). -/
def docFromJson (j : Json) : Option PaintDocument :=
  ((j.getField "bgImgRotation").bind Json.asNum).bind fun rotation =>
  ((j.getField "shapes").bind Json.asArr).bind fun shapesJson =>
  (shapesJson.mapM shapeFromJson).bind fun shapes =>
  some { bgImgSrc := (j.getField "bgImgSrc").bind Json.asStr,
         bgImgRotation := rotation, shapes := shapes }

/-- `handleJSONExport` from `Main/index.tsx`: the JSON value written (as a
string) into the text area. -/
def handleJSONExport (s : MainState) : Json :=
  docToJson { bgImgSrc := s.bgImgSrc, bgImgRotation := s.bgImgRotation,
              shapes := s.shapes }

/-- `handleJSONImport` from `Main/index.tsx`.  `JSON.parse` is a platform
primitive; its outcome on the text-area string is the `parsed` argument
(`none` = the parse threw).  On failure the `catch` shows the alert and no
state setter runs; on success the rotation and shape list are replaced
and, when `data.bgImgSrc` is truthy, the background image is reloaded from
it (the eventual `load` event stores the image; here its `src`).  The
boolean reports whether the alert was shown. -/
def handleJSONImport (parsed : Option PaintDocument) (s : MainState) :
    MainState × Bool :=
  match parsed with
  | none => (s, true)
  | some data =>
      let s1 :=
        match data.bgImgSrc with
        | some src => if src = "" then s else { s with bgImgSrc := some src }
        | none => s
      ({ s1 with bgImgRotation := data.bgImgRotation,
                 shapes := data.shapes }, false)

/-- A sample rectangle used by concrete witnesses. -/
def sampleRect : PaintRect :=
  { x := 10, y := 20, width := 30, height := 40, key := "r1",
    strokeColor := "rgba(249,115,22,1)", fillColor := "rgba(249,115,22,3/10)",
    readonly := false }

/-- A sample ellipse used by concrete witnesses. -/
def sampleEllipse : PaintEllipse :=
  { x := 5, y := 6, radiusX := 7, radiusY := 8, key := "e1",
    strokeColor := "rgba(34,197,94,1)", fillColor := "rgba(34,197,94,3/10)",
    readonly := false }

/-- A sample text shape (with the given content) used by concrete
witnesses. -/
def sampleText (content : String) : PaintText :=
  { x := 1, y := 2, width := 50, key := "t1", color := "rgba(168,85,247,1)",
    fontSize := 16, text := content, readonly := false }

/-- Writing back the element a list already holds at `i` changes nothing. -/
theorem list_set_get_self {α : Type} (l : List α) (i : Nat) (hi : i < l.length) :
    l.set i (l.get ⟨i, hi⟩) = l := by
  induction l generalizing i with
  | nil => simp at hi
  | cons a rest ih =>
      cases i with
      | zero => rfl
      | succ n =>
          simp only [List.set_cons_succ, List.cons.injEq, true_and]
          exact ih n (by simpa using hi)

/-- C5: on resize-end at an in-range index, a Rect stores the observed
width/height directly, an Ellipse stores `⌊width / 2⌋` and `⌊height / 2⌋`
as its radii, and a Text stores only the width; the shape is replaced in
place in the list. -/
theorem resize_end_by_type (shapes : List PaintShape) (i : Nat) (size : Size)
    (hi : i < shapes.length) :
    handleShapeResizeEnd i size shapes = some (shapes.set i
      (match shapes.get ⟨i, hi⟩ with
       | .rect r => PaintShape.rect
           { r with width := size.width, height := size.height }
       | .ellipse e => PaintShape.ellipse
           { e with radiusX := (⌊size.width / 2⌋ : ℚ),
                    radiusY := (⌊size.height / 2⌋ : ℚ) }
       | .text t => PaintShape.text { t with width := size.width })) := by
  simp only [handleShapeResizeEnd, List.get?_eq_get hi]

/-- Witness for C5: resizing the sample ellipse to a 7 by 9 box stores
radii 3 and 4. -/
theorem resize_end_by_type_witness :
    handleShapeResizeEnd 0 { width := 7, height := 9 }
        [PaintShape.ellipse sampleEllipse] =
      some [PaintShape.ellipse
        { sampleEllipse with radiusX := 3, radiusY := 4 }] := by
  have h := resize_end_by_type [PaintShape.ellipse sampleEllipse] 0
    { width := 7, height := 9 } (by decide)
  rw [h]
  norm_num [sampleEllipse]

/-- Helper: what `handleTextInput` does on an in-range Text target. -/
theorem handleTextInput_on_text (shapes : List PaintShape) (i : Nat)
    (char : String) (t : PaintText) (hi : i < shapes.length)
    (ht : shapes.get ⟨i, hi⟩ = PaintShape.text t) :
    handleTextInput i char shapes = some (shapes.set i (PaintShape.text
      { t with text := if char = "Backspace" then backspaceText t.text
                       else t.text ++ char })) := by
  simp only [handleTextInput, List.get?_eq_get hi, ht]

/-- C6: a text-input event whose target is a Text shape removes the last
character of its text when the key string is "Backspace" and appends the
key string otherwise. -/
theorem text_input_edit (shapes : List PaintShape) (i : Nat) (char : String)
    (t : PaintText) (hi : i < shapes.length)
    (ht : shapes.get ⟨i, hi⟩ = PaintShape.text t) :
    handleTextInput i char shapes = some (shapes.set i (PaintShape.text
      { t with text := if char = "Backspace" then backspaceText t.text
                       else t.text ++ char })) :=
  handleTextInput_on_text shapes i char t hi ht

/-- Witness for C6: "Backspace" on "AB" yields "A", and "C" on "A" yields
"AC". -/
theorem text_input_edit_witness :
    handleTextInput 0 "Backspace" [PaintShape.text (sampleText "AB")] =
        some [PaintShape.text (sampleText "A")] ∧
    handleTextInput 0 "C" [PaintShape.text (sampleText "A")] =
        some [PaintShape.text (sampleText "AC")] := by
  constructor
  · have h := text_input_edit [PaintShape.text (sampleText "AB")] 0
      "Backspace" (sampleText "AB") (by decide) rfl
    rw [h]; rfl
  · have h := text_input_edit [PaintShape.text (sampleText "A")] 0
      "C" (sampleText "A") (by decide) rfl
    rw [h]; rfl

/-- C10: a text-input event whose in-range target is a Rect or an Ellipse
leaves the shape list unchanged, and "Backspace" on a Text shape whose text
is already empty also leaves the list (and so the empty text) unchanged. -/
theorem text_input_non_text_noop (shapes : List PaintShape) (i : Nat)
    (char : String) (hi : i < shapes.length) :
    (isPaintRect (shapes.get ⟨i, hi⟩) = true ∨
       isPaintEllipse (shapes.get ⟨i, hi⟩) = true →
     handleTextInput i char shapes = some shapes) ∧
    (∀ t : PaintText, shapes.get ⟨i, hi⟩ = PaintShape.text t → t.text = "" →
     handleTextInput i "Backspace" shapes = some shapes) := by
  constructor
  · intro hcase
    rcases hget : shapes.get ⟨i, hi⟩ with r | e | t <;>
      simp only [handleTextInput, List.get?_eq_get hi, hget]
    rw [hget] at hcase
    simp [isPaintRect, isPaintEllipse] at hcase
  · intro t ht htext
    have h := handleTextInput_on_text shapes i "Backspace" t hi ht
    rw [h]
    have hback : backspaceText t.text = t.text := by
      rw [htext]; rfl
    have hshape : PaintShape.text
        { t with text := if "Backspace" = "Backspace" then backspaceText t.text
                         else t.text ++ "Backspace" } = PaintShape.text t := by
      rw [if_pos rfl, hback]
    rw [hshape, ← ht, list_set_get_self]

/-- Witness for C10: typing "Q" at an in-range Rect changes nothing, and
"Backspace" on an empty Text changes nothing. -/
theorem text_input_non_text_noop_witness :
    handleTextInput 0 "Q" [PaintShape.rect sampleRect] =
        some [PaintShape.rect sampleRect] ∧
    handleTextInput 0 "Backspace" [PaintShape.text (sampleText "")] =
        some [PaintShape.text (sampleText "")] := by
  constructor
  · exact (text_input_non_text_noop [PaintShape.rect sampleRect] 0 "Q"
      (by decide)).1 (Or.inl rfl)
  · exact (text_input_non_text_noop [PaintShape.text (sampleText "")] 0
      "Backspace" (by decide)).2 (sampleText "") rfl rfl

/-- C8: on move-end at an in-range index, only the x and y of the shape at
that index change (to the reported position); the list length, every other
index, and every other property of the moved shape (restored by writing the
old x/y back) are unchanged. -/
theorem move_end_frame (shapes : List PaintShape) (i : Nat) (pos : Position)
    (hi : i < shapes.length) :
    handleShapeMoveEnd i pos shapes =
      some (shapes.set i ((shapes.get ⟨i, hi⟩).setXY pos)) ∧
    (shapes.set i ((shapes.get ⟨i, hi⟩).setXY pos)).length = shapes.length ∧
    (∀ j, j ≠ i →
      (shapes.set i ((shapes.get ⟨i, hi⟩).setXY pos)).get? j =
        shapes.get? j) ∧
    ((shapes.get ⟨i, hi⟩).setXY pos).x = pos.x ∧
    ((shapes.get ⟨i, hi⟩).setXY pos).y = pos.y ∧
    ((shapes.get ⟨i, hi⟩).setXY pos).key = (shapes.get ⟨i, hi⟩).key ∧
    ((shapes.get ⟨i, hi⟩).setXY pos).readonly =
      (shapes.get ⟨i, hi⟩).readonly ∧
    ((shapes.get ⟨i, hi⟩).setXY pos).setXY
        { x := (shapes.get ⟨i, hi⟩).x, y := (shapes.get ⟨i, hi⟩).y } =
      shapes.get ⟨i, hi⟩ := by
  refine ⟨?_, ?_, ?_, ?_, ?_, ?_, ?_, ?_⟩
  · simp only [handleShapeMoveEnd, List.get?_eq_get hi]
  · exact List.length_set ..
  · intro j hj
    exact List.get?_set_ne _ _ (fun h => hj h.symm)
  · cases hget : shapes.get ⟨i, hi⟩ <;> rfl
  · cases hget : shapes.get ⟨i, hi⟩ <;> rfl
  · cases hget : shapes.get ⟨i, hi⟩ <;> rfl
  · cases hget : shapes.get ⟨i, hi⟩ <;> rfl
  · cases hget : shapes.get ⟨i, hi⟩ <;> rfl

/-- Witness for C8: moving the sample rectangle to (5, 6) rewrites exactly
its x and y. -/
theorem move_end_frame_witness :
    handleShapeMoveEnd 0 { x := 5, y := 6 } [PaintShape.rect sampleRect] =
      some [PaintShape.rect { sampleRect with x := 5, y := 6 }] := by
  have h := (move_end_frame [PaintShape.rect sampleRect] 0 { x := 5, y := 6 }
    (by decide)).1
  rw [h]; rfl

/-- C2: when the text area's content is not parseable as JSON (the parse
outcome is `none`), the import leaves the whole state unchanged and shows
the alert; moreover whenever the alert is shown the state is unchanged. -/
theorem import_parse_failure_atomic (s : MainState)
    (parsed : Option PaintDocument) (h : parsed = none) :
    handleJSONImport parsed s = (s, true) ∧
    (∀ p : Option PaintDocument,
      (handleJSONImport p s).2 = true → (handleJSONImport p s).1 = s) := by
  subst h
  refine ⟨rfl, ?_⟩
  intro p halert
  cases p with
  | none => rfl
  | some d => simp [handleJSONImport] at halert

/-- Witness for C2: a failed parse over a sample state changes nothing and
raises the alert. -/
theorem import_parse_failure_atomic_witness :
    handleJSONImport none
        { drawMode := CanvasDrawMode.SELECT,
          shapes := [PaintShape.rect sampleRect], bgImgSrc := none,
          bgImgRotation := 90 } =
      ({ drawMode := CanvasDrawMode.SELECT,
         shapes := [PaintShape.rect sampleRect], bgImgSrc := none,
         bgImgRotation := 90 }, true) :=
  (import_parse_failure_atomic
    { drawMode := CanvasDrawMode.SELECT,
      shapes := [PaintShape.rect sampleRect], bgImgSrc := none,
      bgImgRotation := 90 } none rfl).1

/-- C7: clicking a committed shape whose readonly flag is set fires no
selection callback and leaves the paint state unchanged, so a shape to
which no transform handles were attached still has none attached. -/
theorem readonly_click_no_effect (shapes : List PaintShape) (i : Nat)
    (s : PaintState) (shape : PaintShape)
    (hget : shapes.get? i = some shape) (hro : shape.readonly = true)
    (hsel : transformerAttached s.selectedShape shape = false) :
    ∃ out, clickShapeAt shapes i s = some out ∧
      out.2 = false ∧ out.1 = s ∧
      transformerAttached out.1.selectedShape shape = false := by
  refine ⟨(s, false), ?_, rfl, rfl, hsel⟩
  simp only [clickShapeAt, hget, hro, if_pos]

/-- Witness for C7: clicking a readonly rectangle with nothing selected
has no effect. -/
theorem readonly_click_no_effect_witness :
    ∃ out, clickShapeAt [PaintShape.rect { sampleRect with readonly := true }]
        0 { selectedShape := none, drawTarget := none } = some out ∧
      out.2 = false ∧ out.1 = { selectedShape := none, drawTarget := none } ∧
      transformerAttached out.1.selectedShape
        (PaintShape.rect { sampleRect with readonly := true }) = false :=
  readonly_click_no_effect
    [PaintShape.rect { sampleRect with readonly := true }] 0
    { selectedShape := none, drawTarget := none }
    (PaintShape.rect { sampleRect with readonly := true }) rfl rfl rfl

/-- C9: a pointer-up with no draft shape still invokes the draw-end
callback, with no shape; the host then leaves the shape list unchanged and
resets the draw mode to SELECT. -/
theorem mouse_up_without_draft (s : PaintState) (m : MainState)
    (h : s.drawTarget = none) :
    (handleCanvasMouseUp s).2 = none ∧
    (handleCanvasMouseUp s).1 = s ∧
    (handleCanvasDrawEnd (handleCanvasMouseUp s).2 m).shapes = m.shapes ∧
    (handleCanvasDrawEnd (handleCanvasMouseUp s).2 m).drawMode =
      CanvasDrawMode.SELECT := by
  refine ⟨h, ?_, ?_, ?_⟩
  · show { s with drawTarget := none } = s
    rw [← h]
  · simp only [handleCanvasMouseUp, h, handleCanvasDrawEnd]
  · simp only [handleCanvasMouseUp, h, handleCanvasDrawEnd]

/-- Witness for C9: pointer-up in a draft-free state commits nothing and
resets the draw mode. -/
theorem mouse_up_without_draft_witness :
    (handleCanvasMouseUp { selectedShape := none, drawTarget := none }).2 =
      none ∧
    (handleCanvasMouseUp { selectedShape := none, drawTarget := none }).1 =
      { selectedShape := none, drawTarget := none } ∧
    (handleCanvasDrawEnd
      (handleCanvasMouseUp { selectedShape := none, drawTarget := none }).2
      { drawMode := CanvasDrawMode.RECT, shapes := [PaintShape.rect sampleRect],
        bgImgSrc := none, bgImgRotation := 0 }).shapes =
      [PaintShape.rect sampleRect] ∧
    (handleCanvasDrawEnd
      (handleCanvasMouseUp { selectedShape := none, drawTarget := none }).2
      { drawMode := CanvasDrawMode.RECT, shapes := [PaintShape.rect sampleRect],
        bgImgSrc := none, bgImgRotation := 0 }).drawMode =
      CanvasDrawMode.SELECT :=
  mouse_up_without_draft { selectedShape := none, drawTarget := none }
    { drawMode := CanvasDrawMode.RECT, shapes := [PaintShape.rect sampleRect],
      bgImgSrc := none, bgImgRotation := 0 } rfl

/-- While a Rect draft is live, every mouse move keeps its anchor and
overwrites its extent; after the final move to `p1` the extent is the
signed delta from the anchor. -/
theorem runMoves_rect_last (moves : List Position) (p1 : Position)
    (r : PaintRect) (s : PaintState)
    (h : s.drawTarget = some (PaintShape.rect r)) :
    (runMoves (moves ++ [p1]) s).drawTarget =
      some (PaintShape.rect
        { r with width := p1.x - r.x, height := p1.y - r.y }) := by
  induction moves generalizing r s with
  | nil => simp [runMoves, handleCanvasMouseMove, h]
  | cons m rest ih =>
      have h2 : (handleCanvasMouseMove m s).drawTarget =
          some (PaintShape.rect
            { r with width := m.x - r.x, height := m.y - r.y }) := by
        simp [handleCanvasMouseMove, h]
      exact ih { r with width := m.x - r.x, height := m.y - r.y }
        (handleCanvasMouseMove m s) h2

/-- While an Ellipse draft is live, every mouse move keeps its anchor and
overwrites its radii; after the final move to `p1` the radii are the
absolute deltas from the anchor. -/
theorem runMoves_ellipse_last (moves : List Position) (p1 : Position)
    (e : PaintEllipse) (s : PaintState)
    (h : s.drawTarget = some (PaintShape.ellipse e)) :
    (runMoves (moves ++ [p1]) s).drawTarget =
      some (PaintShape.ellipse
        { e with radiusX := |p1.x - e.x|, radiusY := |p1.y - e.y| }) := by
  induction moves generalizing e s with
  | nil => simp [runMoves, handleCanvasMouseMove, h]
  | cons m rest ih =>
      have h2 : (handleCanvasMouseMove m s).drawTarget =
          some (PaintShape.ellipse
            { e with radiusX := |m.x - e.x|, radiusY := |m.y - e.y| }) := by
        simp [handleCanvasMouseMove, h]
      exact ih { e with radiusX := |m.x - e.x|, radiusY := |m.y - e.y| }
        (handleCanvasMouseMove m s) h2

/-- C3: a rectangle gesture anchored at `p0` whose last pointer position is
`p1` commits a Rect at x = p0.x, y = p0.y with signed width p1.x - p0.x and
signed height p1.y - p0.y, and the host appends exactly that shape. -/
theorem rect_gesture_commit (pen : PenColor) (ro : Bool) (key : String)
    (p0 p1 : Position) (clickedOnEmpty : Bool) (moves : List Position)
    (s0 : PaintState) (m : MainState) :
    (handleCanvasMouseUp (runMoves (moves ++ [p1])
        (handleCanvasMouseDown CanvasDrawMode.RECT pen ro key p0
          clickedOnEmpty s0))).2 =
      some (PaintShape.rect
        { x := p0.x, y := p0.y, width := p1.x - p0.x, height := p1.y - p0.y,
          key := key, strokeColor := getRGBFromPenColor pen 1,
          fillColor := getRGBFromPenColor pen (3 / 10), readonly := ro }) ∧
    (handleCanvasDrawEnd
      (handleCanvasMouseUp (runMoves (moves ++ [p1])
        (handleCanvasMouseDown CanvasDrawMode.RECT pen ro key p0
          clickedOnEmpty s0))).2 m).shapes =
      m.shapes ++ [PaintShape.rect
        { x := p0.x, y := p0.y, width := p1.x - p0.x, height := p1.y - p0.y,
          key := key, strokeColor := getRGBFromPenColor pen 1,
          fillColor := getRGBFromPenColor pen (3 / 10), readonly := ro }] := by
  have hdown : (handleCanvasMouseDown CanvasDrawMode.RECT pen ro key p0
      clickedOnEmpty s0).drawTarget =
      some (PaintShape.rect
        { x := p0.x, y := p0.y, width := 0, height := 0, key := key,
          strokeColor := getRGBFromPenColor pen 1,
          fillColor := getRGBFromPenColor pen (3 / 10), readonly := ro }) :=
    rfl
  have hlast := runMoves_rect_last moves p1 _ _ hdown
  have hup : (handleCanvasMouseUp (runMoves (moves ++ [p1])
      (handleCanvasMouseDown CanvasDrawMode.RECT pen ro key p0
        clickedOnEmpty s0))).2 =
      some (PaintShape.rect
        { x := p0.x, y := p0.y, width := p1.x - p0.x, height := p1.y - p0.y,
          key := key, strokeColor := getRGBFromPenColor pen 1,
          fillColor := getRGBFromPenColor pen (3 / 10), readonly := ro }) :=
    hlast
  refine ⟨hup, ?_⟩
  rw [hup]
  rfl

/-- C4: an ellipse gesture anchored at `p0` whose last pointer position is
`p1` commits an Ellipse with radiusX = |p1.x - p0.x| and
radiusY = |p1.y - p0.y|, both non-negative, and the host appends exactly
that shape. -/
theorem ellipse_gesture_commit (pen : PenColor) (ro : Bool) (key : String)
    (p0 p1 : Position) (clickedOnEmpty : Bool) (moves : List Position)
    (s0 : PaintState) (m : MainState) :
    (handleCanvasMouseUp (runMoves (moves ++ [p1])
        (handleCanvasMouseDown CanvasDrawMode.ELLIPSE pen ro key p0
          clickedOnEmpty s0))).2 =
      some (PaintShape.ellipse
        { x := p0.x, y := p0.y, radiusX := |p1.x - p0.x|,
          radiusY := |p1.y - p0.y|, key := key,
          strokeColor := getRGBFromPenColor pen 1,
          fillColor := getRGBFromPenColor pen (3 / 10), readonly := ro }) ∧
    0 ≤ |p1.x - p0.x| ∧ 0 ≤ |p1.y - p0.y| ∧
    (handleCanvasDrawEnd
      (handleCanvasMouseUp (runMoves (moves ++ [p1])
        (handleCanvasMouseDown CanvasDrawMode.ELLIPSE pen ro key p0
          clickedOnEmpty s0))).2 m).shapes =
      m.shapes ++ [PaintShape.ellipse
        { x := p0.x, y := p0.y, radiusX := |p1.x - p0.x|,
          radiusY := |p1.y - p0.y|, key := key,
          strokeColor := getRGBFromPenColor pen 1,
          fillColor := getRGBFromPenColor pen (3 / 10), readonly := ro }] := by
  have hdown : (handleCanvasMouseDown CanvasDrawMode.ELLIPSE pen ro key p0
      clickedOnEmpty s0).drawTarget =
      some (PaintShape.ellipse
        { x := p0.x, y := p0.y, radiusX := 0, radiusY := 0, key := key,
          strokeColor := getRGBFromPenColor pen 1,
          fillColor := getRGBFromPenColor pen (3 / 10), readonly := ro }) :=
    rfl
  have hlast := runMoves_ellipse_last moves p1 _ _ hdown
  have hup : (handleCanvasMouseUp (runMoves (moves ++ [p1])
      (handleCanvasMouseDown CanvasDrawMode.ELLIPSE pen ro key p0
        clickedOnEmpty s0))).2 =
      some (PaintShape.ellipse
        { x := p0.x, y := p0.y, radiusX := |p1.x - p0.x|,
          radiusY := |p1.y - p0.y|, key := key,
          strokeColor := getRGBFromPenColor pen 1,
          fillColor := getRGBFromPenColor pen (3 / 10), readonly := ro }) :=
    hlast
  refine ⟨hup, abs_nonneg _, abs_nonneg _, ?_⟩
  rw [hup]
  rfl

/-- Serializing one shape and reading it back at the shape type is the
identity. -/
theorem shapeFromJson_shapeToJson (sh : PaintShape) :
    shapeFromJson (shapeToJson sh) = some sh := by
  cases sh <;> rfl

/-- Serializing a shape list and reading it back element-wise is the
identity. -/
theorem mapM_shapeFromJson_shapeToJson (shapes : List PaintShape) :
    (shapes.map shapeToJson).mapM shapeFromJson = some shapes := by
  rw [← List.mapM'_eq_mapM]
  induction shapes with
  | nil => rfl
  | cons sh rest ih =>
      rw [List.map_cons, List.mapM', shapeFromJson_shapeToJson, ih]
      rfl

/-- Serializing a document and reading it back at the document type is the
identity. -/
theorem docFromJson_docToJson (d : PaintDocument) :
    docFromJson (docToJson d) = some d := by
  obtain ⟨src, rot, shapes⟩ := d
  cases src with
  | none =>
      have h : docFromJson (docToJson ⟨none, rot, shapes⟩) =
          ((shapes.map shapeToJson).mapM shapeFromJson).bind fun ss =>
            some ⟨none, rot, ss⟩ := rfl
      rw [h, mapM_shapeFromJson_shapeToJson]
      rfl
  | some str =>
      have h : docFromJson (docToJson ⟨some str, rot, shapes⟩) =
          ((shapes.map shapeToJson).mapM shapeFromJson).bind fun ss =>
            some ⟨some str, rot, ss⟩ := rfl
      rw [h, mapM_shapeFromJson_shapeToJson]
      rfl

/-- C1: exporting the document to JSON and importing the result reproduces
the shape list and the background rotation field-for-field (the background
image itself being reconstructed asynchronously from the encoded source),
with no alert. -/
theorem export_import_round_trip (s : MainState) :
    docFromJson (handleJSONExport s) =
      some { bgImgSrc := s.bgImgSrc, bgImgRotation := s.bgImgRotation,
             shapes := s.shapes } ∧
    (handleJSONImport (docFromJson (handleJSONExport s)) s).1.shapes =
      s.shapes ∧
    (handleJSONImport (docFromJson (handleJSONExport s)) s).1.bgImgRotation =
      s.bgImgRotation ∧
    (handleJSONImport (docFromJson (handleJSONExport s)) s).2 = false := by
  have hdoc : docFromJson (handleJSONExport s) =
      some { bgImgSrc := s.bgImgSrc, bgImgRotation := s.bgImgRotation,
             shapes := s.shapes } :=
    docFromJson_docToJson
      { bgImgSrc := s.bgImgSrc, bgImgRotation := s.bgImgRotation,
        shapes := s.shapes }
  refine ⟨hdoc, ?_, ?_, ?_⟩ <;> rw [hdoc] <;>
    cases hsrc : s.bgImgSrc <;>
      simp [handleJSONImport, hsrc]
